import Mathlib

/-!
# Shallow embedding of the neighbourhood_server backend

This file embeds the membership / access-control core, the room lifecycle
operations, the message endpoints and the room-code generator of the
repository (`main.py`, `models.py`, `permissions.py`, `utils.py`) as
executable Lean definitions, and proves the specification's claims about
them.

Modelling conventions:
* The relational store (SQLAlchemy session) is a `DB` structure holding the
  rows of each table as a list, in insertion order, together with the
  auto-increment counters.  `query(...).filter(...).first()` is `List.find?`,
  `.all()` is `List.filter`, `.count()` is `(List.filter ...).length`, and
  `ORDER BY` is the stable `List.insertionSort` on the sort key.
* `HTTPException(status_code, detail)` is the error type `HTTPError`;
  a handler is a function into `Except HTTPError _`.  All mutations in the
  embedded handlers happen after every check (as in the source, where the
  exception is raised before `db.commit()`), so an `.error` result leaves the
  store unchanged; `applyOp` makes that transaction semantics explicit.
* Python's `str.upper()` on the ASCII strings used here is `pyUpper`,
  character-wise `Char.toUpper`.
* Wall-clock time in the long-poll loop is modelled by a trace
  `dbs : Nat → DB` giving the visible store at each iteration of the loop
  (the source calls `db.expire_all()` before each re-query), and by a fuel
  count derived from the clamped timeout and the fixed 0.5 s sleep.
* `random.choices(alphabet, k=length)` is modelled by an arbitrary pick
  stream `picks : Nat → Nat → Nat`, attempt `i` drawing character `j` as
  `code_alphabet[picks i j % 36]`.
-/

namespace NServer

/-- `models.UserRole`: the three room-scoped roles. -/
inductive UserRole where
  | OWNER
  | ADMIN
  | MEMBER
deriving DecidableEq, Repr

/-- `models.Room` (columns relevant to the verified operations). -/
structure Room where
  id : Nat
  name : String
  code : String
  created_by : Nat
  created_at : Nat
deriving DecidableEq, Repr

/-- `models.RoomMember`: the Membership join entity. -/
structure RoomMember where
  id : Nat
  room_id : Nat
  user_id : Nat
  role : UserRole
  is_banned : Bool
  joined_at : Nat
deriving DecidableEq, Repr

/-- `models.Message`: append-only chat record. -/
structure Message where
  id : Nat
  room_id : Nat
  sender_id : Nat
  content : String
  created_at : Nat
deriving DecidableEq, Repr

/-- `models.Task` (columns relevant to the verified operations). -/
structure Task where
  id : Nat
  room_id : Nat
  title : String
  description : Option String
  assignee_id : Nat
  completed : Bool
deriving DecidableEq, Repr

/-- The visible state of the relational store: one list of rows per table
(in insertion order) plus the auto-increment counters used when new rows
are created. -/
structure DB where
  rooms : List Room
  room_members : List RoomMember
  messages : List Message
  tasks : List Task
  next_room_id : Nat
  next_member_id : Nat
deriving DecidableEq, Repr

/-- `fastapi.HTTPException(status_code=..., detail=...)`. -/
structure HTTPError where
  status_code : Nat
  detail : String
deriving DecidableEq, Repr

instance {ε α : Type} [DecidableEq ε] [DecidableEq α] : DecidableEq (Except ε α) :=
  fun a b =>
    match a, b with
    | .ok x, .ok y =>
        if h : x = y then .isTrue (by rw [h]) else .isFalse (by simp [h])
    | .error x, .error y =>
        if h : x = y then .isTrue (by rw [h]) else .isFalse (by simp [h])
    | .ok _, .error _ => .isFalse (by simp)
    | .error _, .ok _ => .isFalse (by simp)

/-- Transaction semantics of a handler: an `HTTPException` is raised before
any mutation is committed, so on `.error` the store is unchanged. -/
def applyOp (db : DB) (r : Except HTTPError DB) : DB :=
  match r with
  | .ok db' => db'
  | .error _ => db

/-- Python `str.upper()` restricted to the ASCII data handled here:
character-wise `Char.toUpper`. -/
def pyUpper (s : String) : String :=
  ⟨s.data.map Char.toUpper⟩

/-- `permissions.get_user_room_role`: first Membership row for the
(user, room) pair; `None` when absent; 403 when the row is banned;
otherwise the stored role. -/
def get_user_room_role (db : DB) (user_id room_id : Nat) :
    Except HTTPError (Option UserRole) :=
  match db.room_members.find? (fun m => m.user_id == user_id && m.room_id == room_id) with
  | none => .ok none
  | some m =>
      if m.is_banned then
        .error ⟨403, "You are banned from this room"⟩
      else
        .ok (some m.role)

/-- `permissions.check_room_access`: 403 when not a member, propagating the
ban failure unchanged. -/
def check_room_access (db : DB) (user_id room_id : Nat) :
    Except HTTPError UserRole :=
  match get_user_room_role db user_id room_id with
  | .error e => .error e
  | .ok none => .error ⟨403, "You are not a member of this room"⟩
  | .ok (some role) => .ok role

/-- `permissions.check_admin_access`. -/
def check_admin_access (db : DB) (user_id room_id : Nat) :
    Except HTTPError UserRole :=
  match check_room_access db user_id room_id with
  | .error e => .error e
  | .ok role =>
      if role = UserRole.OWNER ∨ role = UserRole.ADMIN then .ok role
      else .error ⟨403, "Admin rights required"⟩

/-- `permissions.check_owner_access`. -/
def check_owner_access (db : DB) (user_id room_id : Nat) :
    Except HTTPError UserRole :=
  match check_room_access db user_id room_id with
  | .error e => .error e
  | .ok role =>
      if role = UserRole.OWNER then .ok role
      else .error ⟨403, "Owner rights required"⟩

/-- The `member_count` subquery used by the room endpoints: non-banned
memberships of the room. -/
def member_count (db : DB) (room_id : Nat) : Nat :=
  (db.room_members.filter (fun m => m.room_id == room_id && !m.is_banned)).length

/-- The room record returned by the room endpoints (`RoomResponse`). -/
structure RoomResponse where
  id : Nat
  name : String
  code : String
  created_by : Nat
  created_at : Nat
  member_count : Nat
deriving DecidableEq, Repr

/-- `main.create_room`, state visible after its FIRST `db.commit()`:
the Room row has been persisted, the OWNER membership has not yet been
written.  The generated code and the wall-clock are parameters. -/
def create_room_first_commit (db : DB) (user_id : Nat) (name code : String)
    (now : Nat) : DB :=
  { db with
      rooms := db.rooms ++ [⟨db.next_room_id, name, code, user_id, now⟩],
      next_room_id := db.next_room_id + 1 }

/-- `main.create_room`, state after its SECOND `db.commit()`: the OWNER
membership for the creator has been persisted as well. -/
def create_room (db : DB) (user_id : Nat) (name code : String) (now : Nat) : DB :=
  let db1 := create_room_first_commit db user_id name code now
  { db1 with
      room_members := db1.room_members ++
        [⟨db1.next_member_id, db.next_room_id, user_id, UserRole.OWNER, false, now⟩],
      next_member_id := db1.next_member_id + 1 }

/-- `main.get_my_rooms`: rooms of the caller's non-banned memberships, each
with its non-banned member count.  The `membership.room` relationship is the
row of `rooms` with the membership's `room_id` (skipped if, contrary to the
foreign-key discipline, no such row exists). -/
def get_my_rooms (db : DB) (user_id : Nat) : List RoomResponse :=
  (db.room_members.filter (fun m => m.user_id == user_id && !m.is_banned)).filterMap
    (fun m =>
      (db.rooms.find? (fun r => r.id == m.room_id)).map
        (fun room =>
          ⟨room.id, room.name, room.code, room.created_by, room.created_at,
            member_count db room.id⟩))

/-- `main.join_room`: look the code up uppercased, reject missing rooms,
banned members and existing members, else insert a MEMBER membership. -/
def join_room (db : DB) (user_id : Nat) (code : String) (now : Nat) :
    Except HTTPError DB :=
  match db.rooms.find? (fun r => r.code == pyUpper code) with
  | none => .error ⟨404, "Room not found"⟩
  | some room =>
      match db.room_members.find?
          (fun m => m.room_id == room.id && m.user_id == user_id) with
      | some existing =>
          if existing.is_banned then
            .error ⟨403, "You are banned from this room"⟩
          else
            .error ⟨400, "Already a member"⟩
      | none =>
          .ok { db with
                  room_members := db.room_members ++
                    [⟨db.next_member_id, room.id, user_id, UserRole.MEMBER,
                       false, now⟩],
                  next_member_id := db.next_member_id + 1 }

/-- `main.leave_room`. -/
def leave_room (db : DB) (user_id room_id : Nat) : Except HTTPError DB :=
  match db.room_members.find?
      (fun m => m.room_id == room_id && m.user_id == user_id) with
  | none => .error ⟨404, "Not a member"⟩
  | some membership =>
      if membership.role = UserRole.OWNER then
        .error ⟨400, "Owner cannot leave the room. Delete it instead."⟩
      else
        .ok { db with
                room_members :=
                  db.room_members.filter (fun m => m.id != membership.id) }

/-- `main.ban_user`: owner-only; 404 when the target has no membership,
400 when the target is the OWNER, else set `is_banned` on the target row. -/
def ban_user (db : DB) (caller room_id target : Nat) : Except HTTPError DB :=
  match check_owner_access db caller room_id with
  | .error e => .error e
  | .ok _ =>
      match db.room_members.find?
          (fun m => m.room_id == room_id && m.user_id == target) with
      | none => .error ⟨404, "User not found in room"⟩
      | some membership =>
          if membership.role = UserRole.OWNER then
            .error ⟨400, "Cannot ban owner"⟩
          else
            .ok { db with
                    room_members := db.room_members.map
                      (fun m =>
                        if m.id == membership.id then
                          { m with is_banned := true }
                        else m) }

/-- `main.unban_user`: owner-only; clears `is_banned` unconditionally when a
membership row exists. -/
def unban_user (db : DB) (caller room_id target : Nat) : Except HTTPError DB :=
  match check_owner_access db caller room_id with
  | .error e => .error e
  | .ok _ =>
      match db.room_members.find?
          (fun m => m.room_id == room_id && m.user_id == target) with
      | none => .error ⟨404, "User not found in room"⟩
      | some membership =>
          .ok { db with
                  room_members := db.room_members.map
                    (fun m =>
                      if m.id == membership.id then
                        { m with is_banned := false }
                      else m) }

/-- `main.kick_user`: owner-only; 404 when the target has no membership,
400 when the target is the OWNER, else delete the membership row. -/
def kick_user (db : DB) (caller room_id target : Nat) : Except HTTPError DB :=
  match check_owner_access db caller room_id with
  | .error e => .error e
  | .ok _ =>
      match db.room_members.find?
          (fun m => m.room_id == room_id && m.user_id == target) with
      | none => .error ⟨404, "User not found in room"⟩
      | some membership =>
          if membership.role = UserRole.OWNER then
            .error ⟨400, "Cannot kick owner"⟩
          else
            .ok { db with
                    room_members :=
                      db.room_members.filter (fun m => m.id != membership.id) }

/-- The partial-update body `TaskUpdate` (pydantic, `exclude_unset`):
`none` fields were not sent and are skipped by the `setattr` loop. -/
structure TaskUpdate where
  title : Option String
  description : Option (Option String)
  assignee_id : Option Nat
  completed : Option Bool
deriving DecidableEq, Repr

/-- The `setattr` loop of `main.update_task` over the set fields. -/
def applyTaskUpdate (u : TaskUpdate) (t : Task) : Task :=
  let t := match u.title with | some v => { t with title := v } | none => t
  let t := match u.description with | some v => { t with description := v } | none => t
  let t := match u.assignee_id with | some v => { t with assignee_id := v } | none => t
  match u.completed with | some v => { t with completed := v } | none => t

/-- `main.update_task`: member access, task lookup, the MEMBER-only
self-assignment check, then field update. -/
def update_task (db : DB) (caller room_id task_id : Nat) (u : TaskUpdate) :
    Except HTTPError DB :=
  match check_room_access db caller room_id with
  | .error e => .error e
  | .ok role =>
      match db.tasks.find? (fun t => t.id == task_id && t.room_id == room_id) with
      | none => .error ⟨404, "Task not found"⟩
      | some task =>
          if role = UserRole.MEMBER ∧ task.assignee_id ≠ caller then
            .error ⟨403, "Can only edit your own tasks"⟩
          else
            .ok { db with
                    tasks := db.tasks.map
                      (fun t =>
                        if t.id == task.id then applyTaskUpdate u t else t) }

/-- `main.delete_task`: member access, task lookup, the MEMBER-only
self-assignment check, then deletion. -/
def delete_task (db : DB) (caller room_id task_id : Nat) :
    Except HTTPError DB :=
  match check_room_access db caller room_id with
  | .error e => .error e
  | .ok role =>
      match db.tasks.find? (fun t => t.id == task_id && t.room_id == room_id) with
      | none => .error ⟨404, "Task not found"⟩
      | some task =>
          if role = UserRole.MEMBER ∧ task.assignee_id ≠ caller then
            .error ⟨403, "Can only delete your own tasks"⟩
          else
            .ok { db with
                    tasks := db.tasks.filter (fun t => t.id != task.id) }

/-- Ascending `ORDER BY created_at` key. -/
def msgLe (a b : Message) : Prop := a.created_at ≤ b.created_at

/-- Descending `ORDER BY created_at` key. -/
def msgGe (a b : Message) : Prop := b.created_at ≤ a.created_at

instance : DecidableRel msgLe := fun _ _ => Nat.decLe _ _

instance : DecidableRel msgGe := fun _ _ => Nat.decLe _ _

instance : IsTotal Message msgLe := ⟨fun _ _ => Nat.le_total _ _⟩

instance : IsTrans Message msgLe := ⟨fun _ _ _ h h' => Nat.le_trans h h'⟩

instance : IsTotal Message msgGe := ⟨fun _ _ => Nat.le_total _ _⟩

instance : IsTrans Message msgGe := ⟨fun _ _ _ h h' => Nat.le_trans h' h⟩

/-- `main.get_messages`: the newest-first query truncated to `limit`,
returned reversed (`messages[::-1]`). -/
def get_messages (db : DB) (caller room_id : Nat) (limit : Nat) :
    Except HTTPError (List Message) :=
  match check_room_access db caller room_id with
  | .error e => .error e
  | .ok _ =>
      let messages :=
        (((db.messages.filter (fun m => m.room_id == room_id)).insertionSort
            msgGe).take limit)
      .ok messages.reverse

/-- One iteration's query of `main.poll_messages`: room messages, filtered
to `id > last_message_id` only when `last_message_id > 0`, ordered by
creation time ascending. -/
def pollQuery (db : DB) (room_id last_message_id : Nat) : List Message :=
  let query := db.messages.filter (fun m => m.room_id == room_id)
  let query :=
    if last_message_id > 0 then
      query.filter (fun m => decide (last_message_id < m.id))
    else query
  query.insertionSort msgLe

/-- The `while True` loop of `main.poll_messages`.  Iteration `i` re-queries
the store state `dbs i` (the source's `db.expire_all()` refresh); when the
query is empty and the fuel — the number of 0.5 s sleeps still allowed by
the clamped timeout — is exhausted, the loop returns the empty list. -/
def pollLoop (dbs : Nat → DB) (room_id last_message_id : Nat) :
    Nat → Nat → List Message
  | i, fuel =>
      let new_messages := pollQuery (dbs i) room_id last_message_id
      if new_messages.isEmpty then
        match fuel with
        | 0 => []
        | fuel' + 1 => pollLoop dbs room_id last_message_id (i + 1) fuel'
      else new_messages

/-- Iterations allowed by a requested timeout: the source clamps
`timeout = min(timeout, 30)` and sleeps 0.5 s per retry, so elapsed time
reaches the clamped timeout after `2 * min(timeout, 30)` sleeps (0 when the
clamped timeout is not positive — the first check `elapsed >= timeout`
already succeeds). -/
def pollIterations (timeout : Int) : Nat :=
  (2 * min timeout 30).toNat

/-- `main.poll_messages`: member access checked once at entry against the
initial store state, then the bounded re-query loop. -/
def poll_messages (dbs : Nat → DB) (caller room_id : Nat)
    (last_message_id : Nat) (timeout : Int) :
    Except HTTPError (List Message) :=
  match check_room_access (dbs 0) caller room_id with
  | .error e => .error e
  | .ok _ => .ok (pollLoop dbs room_id last_message_id 0 (pollIterations timeout))

/-- `string.ascii_uppercase + string.digits`, the population of
`utils.generate_room_code`. -/
def code_alphabet : List Char :=
  "ABCDEFGHIJKLMNOPQRSTUVWXYZ0123456789".toList

/-- One draw of `random.choices(alphabet, k=length)`: attempt `pick`
selects character `j` of the code as an arbitrary alphabet element. -/
def drawnCode (length : Nat) (pick : Nat → Nat) : String :=
  ⟨(List.range length).map (fun j => code_alphabet.getD (pick j % 36) 'A')⟩

/-- The retry loop of `utils.generate_room_code`: draw, re-query storage for
a Room with the drawn code, return on miss, redraw on collision.  The
unbounded `while True` is given explicit fuel; `none` means the fuel ran out
with every attempt colliding. -/
def generate_room_code (db : DB) (picks : Nat → Nat → Nat) (length : Nat) :
    Nat → Nat → Option String
  | i, fuel =>
      let code := drawnCode length (picks i)
      match db.rooms.find? (fun r => r.code == code) with
      | none => some code
      | some _ =>
          match fuel with
          | 0 => none
          | fuel' + 1 => generate_room_code db picks length (i + 1) fuel'

/-! ## General helper lemmas -/

/-- Any two members of a list of length at most one are equal. -/
theorem eq_of_mem_of_length_le_one {α : Type} {l : List α} {a b : α}
    (ha : a ∈ l) (hb : b ∈ l) (h : l.length ≤ 1) : a = b := by
  cases l with
  | nil => cases ha
  | cons x t =>
      cases t with
      | nil => rw [List.mem_singleton.mp ha, List.mem_singleton.mp hb]
      | cons y t' => simp at h


/-- When at most one element satisfies `p`, `find?` returns any satisfying
member. -/
theorem find?_eq_some_of_unique {α : Type} {p : α → Bool} {l : List α} {a : α}
    (ha : a ∈ l) (hpa : p a = true)
    (huniq : (l.filter p).length ≤ 1) :
    l.find? p = some a := by
  have hsome : (l.find? p).isSome := List.find?_isSome.mpr ⟨a, ha, hpa⟩
  obtain ⟨b, hb⟩ := Option.isSome_iff_exists.mp hsome
  have hbl : b ∈ l := List.mem_of_find?_eq_some hb
  have hpb : p b := List.find?_some hb
  have hba : b = a :=
    eq_of_mem_of_length_le_one (List.mem_filter.mpr ⟨hbl, hpb⟩)
      (List.mem_filter.mpr ⟨ha, hpa⟩) huniq
  rw [hb, hba]

/-- Shared sample store: one room (code `AB12CD`), user 1 its OWNER, user 2 a
banned MEMBER, user 3 a regular MEMBER, three messages, one task assigned to
user 3. -/
def sampleDB : DB :=
  { rooms := [⟨1, "flat", "AB12CD", 1, 0⟩],
    room_members :=
      [⟨1, 1, 1, UserRole.OWNER, false, 0⟩,
       ⟨2, 1, 2, UserRole.MEMBER, true, 0⟩,
       ⟨3, 1, 3, UserRole.MEMBER, false, 0⟩],
    messages := [⟨1, 1, 1, "a", 1⟩, ⟨2, 1, 1, "b", 2⟩, ⟨3, 1, 3, "c", 3⟩],
    tasks := [⟨1, 1, "t", none, 3, false⟩],
    next_room_id := 2, next_member_id := 4 }

/-! ## C2: role resolution -/

/-- C2: assuming at most one Membership row per (user, room) pair, role
resolution raises the 403 ban failure whenever the pair's row has
`is_banned = true` (never returning a role), returns the normal non-failure
result `none` ("not a member") when no row exists, and returns the stored
role otherwise. -/
theorem C2_resolve_role_banned_absent_present (db : DB) (u r : Nat)
    (huniq : (db.room_members.filter
      (fun m => m.user_id == u && m.room_id == r)).length ≤ 1) :
    (∀ m ∈ db.room_members, m.user_id = u → m.room_id = r → m.is_banned = true →
        get_user_room_role db u r = .error ⟨403, "You are banned from this room"⟩)
    ∧ ((∀ m ∈ db.room_members, ¬(m.user_id = u ∧ m.room_id = r)) →
        get_user_room_role db u r = .ok none)
    ∧ (∀ m ∈ db.room_members, m.user_id = u → m.room_id = r → m.is_banned = false →
        get_user_room_role db u r = .ok (some m.role)) := by
  refine ⟨fun m hm hu hr hban => ?_, fun habs => ?_, fun m hm hu hr hban => ?_⟩
  · have hfind := find?_eq_some_of_unique hm (by simp [hu, hr]) huniq
    unfold get_user_room_role
    rw [hfind]
    simp [hban]
  · have hfind : db.room_members.find?
        (fun m => m.user_id == u && m.room_id == r) = none := by
      rw [List.find?_eq_none]
      intro m hm
      have := habs m hm
      simp only [Bool.and_eq_true, beq_iff_eq]
      exact fun hc => this hc
    unfold get_user_room_role
    rw [hfind]
  · have hfind := find?_eq_some_of_unique hm (by simp [hu, hr]) huniq
    unfold get_user_room_role
    rw [hfind]
    simp [hban]

/-- C2 witness: in `sampleDB`, the banned user 2 gets the ban failure, the
outsider user 9 gets "not a member", and the regular member 3 gets MEMBER. -/
theorem C2_resolve_role_banned_absent_present_witness :
    get_user_room_role sampleDB 2 1 = .error ⟨403, "You are banned from this room"⟩
    ∧ get_user_room_role sampleDB 9 1 = .ok none
    ∧ get_user_room_role sampleDB 3 1 = .ok (some UserRole.MEMBER) := by
  refine ⟨?_, ?_, ?_⟩
  · exact (C2_resolve_role_banned_absent_present sampleDB 2 1 (by decide)).1
      ⟨2, 1, 2, UserRole.MEMBER, true, 0⟩ (by decide) rfl rfl rfl
  · exact (C2_resolve_role_banned_absent_present sampleDB 9 1 (by decide)).2.1
      (by decide)
  · exact (C2_resolve_role_banned_absent_present sampleDB 3 1 (by decide)).2.2
      ⟨3, 1, 3, UserRole.MEMBER, false, 0⟩ (by decide) rfl rfl rfl

/-! ## C3: join by code -/

/-- Uppercase Latin letter or decimal digit (codepoints 65-90 / 48-57). -/
def upperAlnumChar (c : Char) : Prop :=
  (65 ≤ c.toNat ∧ c.toNat ≤ 90) ∨ (48 ≤ c.toNat ∧ c.toNat ≤ 57)

instance : DecidablePred upperAlnumChar := fun c => by
  unfold upperAlnumChar; infer_instance

/-- `Char.toUpper` fixes uppercase letters and digits. -/
theorem toUpper_fixed_of_upperAlnum {c : Char} (h : upperAlnumChar c) :
    c.toUpper = c := by
  have hn : ¬(97 ≤ c.toNat ∧ c.toNat ≤ 122) := by
    rcases h with ⟨_, h⟩ | ⟨_, h⟩ <;> omega
  unfold Char.toUpper
  rw [if_neg hn]

/-- `pyUpper` fixes strings of uppercase letters and digits. -/
theorem pyUpper_fixed {s : String} (h : ∀ c ∈ s.data, upperAlnumChar c) :
    pyUpper s = s := by
  obtain ⟨data⟩ := s
  unfold pyUpper
  simp only
  congr 1
  calc data.map Char.toUpper
      = data.map id := List.map_congr_left (fun c hc => toUpper_fixed_of_upperAlnum (h c hc))
    _ = data := List.map_id data

/-- C3: assuming at most one Membership row per (room, user) pair, a
join-by-code request looks the code up after uppercasing, so any case
variant of an existing uppercase-alphanumeric code matches; it fails 404
`RoomNotFound` when no room's code equals the uppercased input, 403 `Banned`
(not `AlreadyMember`) when the caller's membership row in the matched room
is banned, 400 `AlreadyMember` when it exists non-banned, and otherwise
appends a fresh non-banned Membership with role MEMBER. -/
theorem C3_join_room_cases (db : DB) (u : Nat) (s : String) (now : Nat)
    (huniq : ∀ room ∈ db.rooms, (db.room_members.filter
      (fun m => m.room_id == room.id && m.user_id == u)).length ≤ 1) :
    ((∀ r ∈ db.rooms, r.code ≠ pyUpper s) →
        join_room db u s now = .error ⟨404, "Room not found"⟩)
    ∧ (∀ room, db.rooms.find? (fun r => r.code == pyUpper s) = some room →
        (∀ m ∈ db.room_members, m.room_id = room.id → m.user_id = u →
            m.is_banned = true →
            join_room db u s now = .error ⟨403, "You are banned from this room"⟩)
        ∧ (∀ m ∈ db.room_members, m.room_id = room.id → m.user_id = u →
            m.is_banned = false →
            join_room db u s now = .error ⟨400, "Already a member"⟩)
        ∧ ((∀ m ∈ db.room_members, ¬(m.room_id = room.id ∧ m.user_id = u)) →
            join_room db u s now = .ok { db with
              room_members := db.room_members ++
                [⟨db.next_member_id, room.id, u, UserRole.MEMBER, false, now⟩],
              next_member_id := db.next_member_id + 1 }))
    ∧ (∀ room ∈ db.rooms, (∀ c ∈ room.code.data, upperAlnumChar c) →
        pyUpper s = pyUpper room.code →
        db.rooms.find? (fun r => r.code == pyUpper s) ≠ none) := by
  refine ⟨fun habs => ?_, fun room hroom => ?_, fun room hroom hcode hvar => ?_⟩
  · have hfind : db.rooms.find? (fun r => r.code == pyUpper s) = none := by
      rw [List.find?_eq_none]
      intro r hr
      simpa using habs r hr
    unfold join_room
    rw [hfind]
  · have hmem : room ∈ db.rooms := List.mem_of_find?_eq_some hroom
    refine ⟨fun m hm hrid huid hban => ?_, fun m hm hrid huid hban => ?_,
      fun habs => ?_⟩
    · have hfind := find?_eq_some_of_unique hm (by simp [hrid, huid]) (huniq room hmem)
      simp only [join_room, hroom, hfind, hban, if_true]
    · have hfind := find?_eq_some_of_unique hm (by simp [hrid, huid]) (huniq room hmem)
      simp only [join_room, hroom, hfind, hban]
      simp
    · have hfind : db.room_members.find?
          (fun m => m.room_id == room.id && m.user_id == u) = none := by
        rw [List.find?_eq_none]
        intro m hm
        have := habs m hm
        simp only [Bool.and_eq_true, beq_iff_eq]
        exact fun hc => this hc
      simp only [join_room, hroom, hfind]
  · have hfix : pyUpper room.code = room.code := pyUpper_fixed hcode
    have hmatch : (fun r : Room => r.code == pyUpper s) room = true := by
      simp [hvar, hfix]
    intro hnone
    rw [List.find?_eq_none] at hnone
    exact hnone room hroom hmatch

/-- C3 witness: in `sampleDB` (room code `AB12CD`), lowercased input
`ab12cd` matches; the banned user 2 gets 403, member 3 gets 400, outsider 9
gets a fresh MEMBER membership, and a non-matching code gets 404. -/
theorem C3_join_room_cases_witness :
    join_room sampleDB 9 "NOPE" 0 = .error ⟨404, "Room not found"⟩
    ∧ join_room sampleDB 2 "ab12cd" 0 = .error ⟨403, "You are banned from this room"⟩
    ∧ join_room sampleDB 3 "ab12cd" 0 = .error ⟨400, "Already a member"⟩
    ∧ join_room sampleDB 9 "ab12cd" 0 = .ok { sampleDB with
        room_members := sampleDB.room_members ++
          [⟨4, 1, 9, UserRole.MEMBER, false, 0⟩],
        next_member_id := 5 } := by
  refine ⟨?_, ?_, ?_, ?_⟩
  · exact (C3_join_room_cases sampleDB 9 "NOPE" 0 (by decide)).1 (by decide)
  · exact ((C3_join_room_cases sampleDB 2 "ab12cd" 0 (by decide)).2.1
      ⟨1, "flat", "AB12CD", 1, 0⟩ (by decide)).1
      ⟨2, 1, 2, UserRole.MEMBER, true, 0⟩ (by decide) rfl rfl rfl
  · exact ((C3_join_room_cases sampleDB 3 "ab12cd" 0 (by decide)).2.1
      ⟨1, "flat", "AB12CD", 1, 0⟩ (by decide)).2.1
      ⟨3, 1, 3, UserRole.MEMBER, false, 0⟩ (by decide) rfl rfl rfl
  · exact ((C3_join_room_cases sampleDB 9 "ab12cd" 0 (by decide)).2.1
      ⟨1, "flat", "AB12CD", 1, 0⟩ (by decide)).2.2 (by decide)

/-! ## C7: ban and kick -/

/-- C7: with the owner-only guard passed and `m` the (unique) Membership row
of the target in the room: when the target's role is OWNER both Ban and Kick
fail with 400 (`CannotTargetOwner`) and leave the store unchanged; otherwise
Ban retains the row (same row count) merely setting `is_banned` with the
role kept, and Kick deletes the row outright — afterwards the target has no
Membership row in the room, so a subsequent join by the room's code succeeds,
creating a fresh non-banned MEMBER membership. -/
theorem C7_ban_kick_target_owner_and_rejoin
    (db : DB) (caller room_id target now : Nat) (m : RoomMember)
    (hcaller : check_owner_access db caller room_id = .ok UserRole.OWNER)
    (hm : m ∈ db.room_members) (hrid : m.room_id = room_id)
    (huid : m.user_id = target)
    (huniq : (db.room_members.filter
      (fun x => x.room_id == room_id && x.user_id == target)).length ≤ 1) :
    (m.role = UserRole.OWNER →
        ban_user db caller room_id target = .error ⟨400, "Cannot ban owner"⟩
        ∧ kick_user db caller room_id target = .error ⟨400, "Cannot kick owner"⟩
        ∧ applyOp db (ban_user db caller room_id target) = db
        ∧ applyOp db (kick_user db caller room_id target) = db)
    ∧ (m.role ≠ UserRole.OWNER →
        (∃ db', ban_user db caller room_id target = .ok db'
          ∧ db'.room_members.length = db.room_members.length
          ∧ { m with is_banned := true } ∈ db'.room_members)
        ∧ (∃ db', kick_user db caller room_id target = .ok db'
          ∧ db'.room_members.find?
              (fun x => x.room_id == room_id && x.user_id == target) = none
          ∧ ∀ r : Room,
              db.rooms.find? (fun x => x.code == pyUpper r.code) = some r →
              r.id = room_id →
              join_room db' target r.code now = .ok { db' with
                room_members := db'.room_members ++
                  [⟨db.next_member_id, r.id, target, UserRole.MEMBER, false, now⟩],
                next_member_id := db.next_member_id + 1 })) := by
  have hfind := find?_eq_some_of_unique hm (by simp [hrid, huid]) huniq
  constructor
  · intro hrole
    have hban : ban_user db caller room_id target =
        .error ⟨400, "Cannot ban owner"⟩ := by
      simp [ban_user, hcaller, hfind, hrole]
    have hkick : kick_user db caller room_id target =
        .error ⟨400, "Cannot kick owner"⟩ := by
      simp [kick_user, hcaller, hfind, hrole]
    exact ⟨hban, hkick, by rw [hban]; rfl, by rw [hkick]; rfl⟩
  · intro hrole
    constructor
    · have hban : ban_user db caller room_id target = .ok
          { db with room_members := db.room_members.map (fun x => if x.id == m.id then { x with is_banned := true } else x) } := by
        simp [ban_user, hcaller, hfind, hrole]
      refine ⟨_, hban, ?_, ?_⟩
      · exact (List.length_map _ _)
      · have hmap : { m with is_banned := true } =
            (fun x : RoomMember =>
              if x.id == m.id then { x with is_banned := true } else x) m := by
          simp
        rw [hmap]
        exact List.mem_map_of_mem _ hm
    · have hnone : (db.room_members.filter (fun x => x.id != m.id)).find?
          (fun x => x.room_id == room_id && x.user_id == target) = none := by
        rw [List.find?_eq_none]
        intro x hx hpx
        have hx' := List.mem_filter.mp hx
        have hxid : x.id ≠ m.id := by simpa using hx'.2
        have hxm : x = m :=
          eq_of_mem_of_length_le_one (List.mem_filter.mpr ⟨hx'.1, hpx⟩)
            (List.mem_filter.mpr ⟨hm, by simp [hrid, huid]⟩) huniq
        exact hxid (by rw [hxm])
      have hkick : kick_user db caller room_id target = .ok
          { db with room_members := db.room_members.filter (fun x => x.id != m.id) } := by
        simp [kick_user, hcaller, hfind, hrole]
      refine ⟨_, hkick, hnone, ?_⟩
      intro r hr hrid2
      have hfr : ({ db with
          room_members := db.room_members.filter (fun x => x.id != m.id) } :
            DB).rooms.find? (fun x => x.code == pyUpper r.code) = some r := hr
      simp only [join_room, hfr, hrid2, hnone]

/-- C7 witness: in `sampleDB` user 1 (OWNER) cannot be banned or kicked and
the store is untouched; kicking member 3 removes the row and rejoining via
`AB12CD` succeeds as a fresh non-banned MEMBER. -/
theorem C7_ban_kick_target_owner_and_rejoin_witness :
    (ban_user sampleDB 1 1 1 = .error ⟨400, "Cannot ban owner"⟩
      ∧ applyOp sampleDB (ban_user sampleDB 1 1 1) = sampleDB)
    ∧ (∃ db', kick_user sampleDB 1 1 3 = .ok db'
        ∧ db'.room_members.find?
            (fun x => x.room_id == 1 && x.user_id == 3) = none
        ∧ join_room db' 3 "AB12CD" 0 = .ok { db' with
            room_members := db'.room_members ++
              [⟨4, 1, 3, UserRole.MEMBER, false, 0⟩],
            next_member_id := 5 }) := by
  constructor
  · have h := (C7_ban_kick_target_owner_and_rejoin sampleDB 1 1 1 0
      ⟨1, 1, 1, UserRole.OWNER, false, 0⟩ (by decide) (by decide) rfl rfl
      (by decide)).1 rfl
    exact ⟨h.1, h.2.2.1⟩
  · have h := (C7_ban_kick_target_owner_and_rejoin sampleDB 1 1 3 0
      ⟨3, 1, 3, UserRole.MEMBER, false, 0⟩ (by decide) (by decide) rfl rfl
      (by decide)).2 (by decide)
    obtain ⟨db', hkick, hnone, hjoin⟩ := h.2
    exact ⟨db', hkick, hnone, hjoin ⟨1, "flat", "AB12CD", 1, 0⟩ (by decide) rfl⟩

/-! ## C8: task permissions -/

/-- Sample store for task permissions: `sampleDB` plus a second non-banned
MEMBER (user 4); the task is assigned to user 3. -/
def taskDB : DB :=
  { sampleDB with
      room_members := sampleDB.room_members ++ [⟨4, 1, 4, UserRole.MEMBER, false, 0⟩],
      next_member_id := 5 }

/-- C8: with the task resolved in the room, a caller whose role resolves to
MEMBER and who is not the task's assignee gets 403 from both update and
delete with the store unchanged, while a caller resolving to ADMIN or OWNER
may update and delete any task of the room regardless of assignee. -/
theorem C8_task_edit_delete_policy
    (db : DB) (caller room_id task_id : Nat) (u : TaskUpdate) (t : Task)
    (ht : db.tasks.find? (fun x => x.id == task_id && x.room_id == room_id) = some t) :
    (check_room_access db caller room_id = .ok UserRole.MEMBER →
        t.assignee_id ≠ caller →
        update_task db caller room_id task_id u =
            .error ⟨403, "Can only edit your own tasks"⟩
        ∧ delete_task db caller room_id task_id =
            .error ⟨403, "Can only delete your own tasks"⟩
        ∧ applyOp db (update_task db caller room_id task_id u) = db
        ∧ applyOp db (delete_task db caller room_id task_id) = db)
    ∧ (∀ role, check_room_access db caller room_id = .ok role →
        (role = UserRole.ADMIN ∨ role = UserRole.OWNER) →
        (∃ db', update_task db caller room_id task_id u = .ok db')
        ∧ (∃ db', delete_task db caller room_id task_id = .ok db')) := by
  constructor
  · intro hacc hne
    have hupd : update_task db caller room_id task_id u =
        .error ⟨403, "Can only edit your own tasks"⟩ := by
      simp [update_task, hacc, ht, hne]
    have hdel : delete_task db caller room_id task_id =
        .error ⟨403, "Can only delete your own tasks"⟩ := by
      simp [delete_task, hacc, ht, hne]
    exact ⟨hupd, hdel, by rw [hupd]; rfl, by rw [hdel]; rfl⟩
  · intro role hacc hrole
    have hcond : ¬(role = UserRole.MEMBER ∧ t.assignee_id ≠ caller) := by
      rcases hrole with h | h <;> subst h <;> simp
    constructor
    · refine ⟨{ db with tasks := db.tasks.map (fun x => if x.id == t.id then applyTaskUpdate u x else x) }, ?_⟩
      simp [update_task, hacc, ht, hcond]
    · refine ⟨{ db with tasks := db.tasks.filter (fun x => x.id != t.id) }, ?_⟩
      simp [delete_task, hacc, ht, hcond]

/-- C8 witness: in `taskDB` the MEMBER user 4 may neither update nor delete
the task assigned to user 3 (store untouched), while the OWNER user 1 may do
both. -/
theorem C8_task_edit_delete_policy_witness :
    (update_task taskDB 4 1 1 ⟨some "x", none, none, some true⟩ =
        .error ⟨403, "Can only edit your own tasks"⟩
      ∧ applyOp taskDB (delete_task taskDB 4 1 1) = taskDB)
    ∧ (∃ db', update_task taskDB 1 1 1 ⟨some "x", none, none, some true⟩ = .ok db')
    ∧ (∃ db', delete_task taskDB 1 1 1 = .ok db') := by
  constructor
  · have h := (C8_task_edit_delete_policy taskDB 4 1 1
      ⟨some "x", none, none, some true⟩ ⟨1, 1, "t", none, 3, false⟩
      (by decide)).1 (by decide) (by decide)
    exact ⟨h.1, h.2.2.2⟩
  · exact (C8_task_edit_delete_policy taskDB 1 1 1
      ⟨some "x", none, none, some true⟩ ⟨1, 1, "t", none, 3, false⟩
      (by decide)).2 UserRole.OWNER (by decide) (Or.inr rfl)

/-! ## C1: room creation atomicity and the OWNER invariant -/

/-- The empty store, as after `Base.metadata.create_all`; auto-increment
identifiers start at 1. -/
def emptyDB : DB :=
  { rooms := [], room_members := [], messages := [], tasks := [],
    next_room_id := 1, next_member_id := 1 }

/-- The Membership rows of a room carrying role OWNER. -/
def owner_rows (db : DB) (room_id : Nat) : List RoomMember :=
  db.room_members.filter (fun m => m.room_id == room_id && m.role == UserRole.OWNER)

/-- C1 (refuted on the code): `create_room` issues TWO separate commits —
the Room row first, the OWNER membership second — so the state visible
between them contains room 1 with NO OWNER membership, contradicting the
claimed observable atomicity; only after the second commit does the room
have exactly one OWNER row, and the subsequent operations refuse to touch
it (owner cannot leave, be banned, or be kicked). -/
theorem C1_create_room_commits_room_before_owner :
    ((create_room_first_commit emptyDB 1 "flat" "AB12CD" 0).rooms.map Room.id = [1]
      ∧ owner_rows (create_room_first_commit emptyDB 1 "flat" "AB12CD" 0) 1 = [])
    ∧ owner_rows (create_room emptyDB 1 "flat" "AB12CD" 0) 1 =
        [⟨1, 1, 1, UserRole.OWNER, false, 0⟩]
    ∧ leave_room (create_room emptyDB 1 "flat" "AB12CD" 0) 1 1 =
        .error ⟨400, "Owner cannot leave the room. Delete it instead."⟩
    ∧ ban_user (create_room emptyDB 1 "flat" "AB12CD" 0) 1 1 1 =
        .error ⟨400, "Cannot ban owner"⟩
    ∧ kick_user (create_room emptyDB 1 "flat" "AB12CD" 0) 1 1 1 =
        .error ⟨400, "Cannot kick owner"⟩ := by
  decide

/-! ## C4 and C5: the long-poll loop -/

/-- Each iteration's query result is sorted ascending by creation time. -/
theorem pollQuery_sorted (db : DB) (room_id last_message_id : Nat) :
    List.Sorted msgLe (pollQuery db room_id last_message_id) :=
  List.sorted_insertionSort msgLe _

/-- With a positive cursor, the query holds exactly the room's messages with
id above the cursor. -/
theorem pollQuery_perm_pos (db : DB) (room_id last_message_id : Nat)
    (h : 0 < last_message_id) :
    (pollQuery db room_id last_message_id).Perm
      ((db.messages.filter (fun m => m.room_id == room_id)).filter
        (fun m => decide (last_message_id < m.id))) := by
  unfold pollQuery
  simp only [h, if_true, gt_iff_lt]
  exact List.perm_insertionSort msgLe _

/-- With cursor 0 the id filter is not applied: the query holds all of the
room's messages. -/
theorem pollQuery_perm_zero (db : DB) (room_id : Nat) :
    (pollQuery db room_id 0).Perm
      (db.messages.filter (fun m => m.room_id == room_id)) := by
  unfold pollQuery
  simp only [gt_iff_lt, lt_self_iff_false, if_false]
  exact List.perm_insertionSort msgLe _

/-- If every query up to the fuel bound is empty, the loop returns `[]`. -/
theorem pollLoop_all_empty (dbs : Nat → DB) (room_id last_message_id : Nat) :
    ∀ fuel i, (∀ j, i ≤ j → j ≤ i + fuel →
        pollQuery (dbs j) room_id last_message_id = []) →
      pollLoop dbs room_id last_message_id i fuel = [] := by
  intro fuel
  induction fuel with
  | zero =>
      intro i h
      rw [pollLoop]
      simp [h i (le_refl i) (by omega)]
  | succ n ih =>
      intro i h
      rw [pollLoop]
      simp only [h i (le_refl i) (by omega), List.isEmpty_nil, if_true]
      exact ih (i + 1) (fun j hj hj2 => h j (by omega) (by omega))

/-- The loop returns the first non-empty query result. -/
theorem pollLoop_first_found (dbs : Nat → DB) (room_id last_message_id : Nat) :
    ∀ fuel i k, i ≤ k → k ≤ i + fuel →
      (∀ j, i ≤ j → j < k → pollQuery (dbs j) room_id last_message_id = []) →
      pollQuery (dbs k) room_id last_message_id ≠ [] →
      pollLoop dbs room_id last_message_id i fuel =
        pollQuery (dbs k) room_id last_message_id := by
  intro fuel
  induction fuel with
  | zero =>
      intro i k hik hk hbefore hfound
      have hki : k = i := by omega
      subst hki
      rw [pollLoop, if_neg (by simpa using hfound)]
  | succ n ih =>
      intro i k hik hk hbefore hfound
      rw [pollLoop]
      by_cases hki : k = i
      · subst hki
        rw [if_neg (by simpa using hfound)]
      · have hlt : i < k := by omega
        simp only [hbefore i (le_refl i) hlt, List.isEmpty_nil, if_true]
        exact ih (i + 1) k (by omega) (by omega)
          (fun j hj hj2 => hbefore j (by omega) hj2) hfound

/-- Whatever the loop returns non-empty is some iteration's query result. -/
theorem pollLoop_result_is_query (dbs : Nat → DB) (room_id last_message_id : Nat) :
    ∀ fuel i, pollLoop dbs room_id last_message_id i fuel = [] ∨
      ∃ k, i ≤ k ∧ k ≤ i + fuel ∧
        pollLoop dbs room_id last_message_id i fuel =
          pollQuery (dbs k) room_id last_message_id := by
  intro fuel
  induction fuel with
  | zero =>
      intro i
      rw [pollLoop]
      by_cases h : pollQuery (dbs i) room_id last_message_id = []
      · left
        simp [h]
      · right
        refine ⟨i, le_refl i, by omega, ?_⟩
        rw [if_neg (by simpa using h)]
  | succ n ih =>
      intro i
      rw [pollLoop]
      by_cases h : pollQuery (dbs i) room_id last_message_id = []
      · simp only [h, List.isEmpty_nil, if_true]
        rcases ih (i + 1) with h' | ⟨k, hk1, hk2, hk3⟩
        · left
          exact h'
        · right
          exact ⟨k, by omega, by omega, hk3⟩
      · right
        refine ⟨i, le_refl i, by omega, ?_⟩
        rw [if_neg (by simpa using h)]

/-- C5: the effective wait bound of a poll is the requested timeout clamped
to 30 s server-side — the endpoint behaves identically on `timeout` and
`min timeout 30` — and when every re-query within the clamped bound finds
nothing the poll returns the empty array as a SUCCESS (`.ok []`), not a
failure. -/
theorem C5_poll_timeout_clamped_empty_success
    (dbs : Nat → DB) (caller room_id last_message_id : Nat) (timeout : Int) :
    poll_messages dbs caller room_id last_message_id timeout =
      poll_messages dbs caller room_id last_message_id (min timeout 30)
    ∧ (∀ role, check_room_access (dbs 0) caller room_id = .ok role →
        (∀ j, j ≤ pollIterations timeout →
          pollQuery (dbs j) room_id last_message_id = []) →
        poll_messages dbs caller room_id last_message_id timeout = .ok []) := by
  constructor
  · unfold poll_messages pollIterations
    rw [min_assoc, min_self]
  · intro role hacc hempty
    simp only [poll_messages, hacc]
    rw [pollLoop_all_empty dbs room_id last_message_id (pollIterations timeout) 0
      (fun j _ hj2 => hempty j (by omega))]

/-- C5 witness: polling `sampleDB` (cursor 10, beyond every message id) with
requested timeout 40 behaves as with the clamp 30 and returns `.ok []`. -/
theorem C5_poll_timeout_clamped_empty_success_witness :
    poll_messages (fun _ => sampleDB) 3 1 10 40 =
      poll_messages (fun _ => sampleDB) 3 1 10 (min 40 30)
    ∧ poll_messages (fun _ => sampleDB) 3 1 10 40 = .ok [] := by
  have h := C5_poll_timeout_clamped_empty_success (fun _ => sampleDB) 3 1 10 40
  exact ⟨h.1, h.2 UserRole.MEMBER (by decide) (fun j _ => by decide)⟩

/-- C4: for a member's poll, if queries are empty before iteration `k` (within
the clamped bound) and iteration `k`'s query is non-empty, the poll returns
exactly that query's result — the room's messages with id above the positive
cursor, ordered ascending by creation time; a non-empty result only ever
arises as some iteration's query result; and with cursor 0 no id filter is
applied. -/
theorem C4_poll_returns_first_new_messages
    (dbs : Nat → DB) (caller room_id last_message_id : Nat) (timeout : Int)
    (k : Nat) (role : UserRole)
    (hacc : check_room_access (dbs 0) caller room_id = .ok role)
    (hk : k ≤ pollIterations timeout)
    (hbefore : ∀ j < k, pollQuery (dbs j) room_id last_message_id = [])
    (hfound : pollQuery (dbs k) room_id last_message_id ≠ []) :
    poll_messages dbs caller room_id last_message_id timeout =
      .ok (pollQuery (dbs k) room_id last_message_id)
    ∧ (0 < last_message_id →
        (pollQuery (dbs k) room_id last_message_id).Perm
          (((dbs k).messages.filter (fun m => m.room_id == room_id)).filter
            (fun m => decide (last_message_id < m.id))))
    ∧ List.Sorted msgLe (pollQuery (dbs k) room_id last_message_id)
    ∧ (∀ l, poll_messages dbs caller room_id last_message_id timeout = .ok l →
        l ≠ [] → ∃ j ≤ pollIterations timeout,
          l = pollQuery (dbs j) room_id last_message_id)
    ∧ (∀ db : DB, (pollQuery db room_id 0).Perm
        (db.messages.filter (fun m => m.room_id == room_id))) := by
  refine ⟨?_, fun hpos => pollQuery_perm_pos _ _ _ hpos, pollQuery_sorted _ _ _,
    ?_, fun db => pollQuery_perm_zero db room_id⟩
  · simp only [poll_messages, hacc]
    rw [pollLoop_first_found dbs room_id last_message_id
      (pollIterations timeout) 0 k (by omega) (by omega)
      (fun j _ hj => hbefore j hj) hfound]
  · intro l hl hne
    simp only [poll_messages, hacc, Except.ok.injEq] at hl
    rcases pollLoop_result_is_query dbs room_id last_message_id
        (pollIterations timeout) 0 with h | ⟨j, _, hj2, hj3⟩
    · exact absurd (hl ▸ h) hne
    · exact ⟨j, by omega, hl ▸ hj3⟩

/-- C4 witness: the member 3 polling room 1 of `sampleDB` with cursor 2 gets,
already at iteration 0, exactly message 3 (the one with id above the
cursor). -/
theorem C4_poll_returns_first_new_messages_witness :
    poll_messages (fun _ => sampleDB) 3 1 2 25 =
      .ok (pollQuery sampleDB 1 2)
    ∧ pollQuery sampleDB 1 2 = [⟨3, 1, 3, "c", 3⟩] := by
  have h := C4_poll_returns_first_new_messages (fun _ => sampleDB) 3 1 2 25 0
    UserRole.MEMBER (by decide) (by omega)
    (fun j hj => absurd hj (by omega)) (by decide)
  exact ⟨h.1, by decide⟩

/-! ## C6: plain message fetch -/

/-- C6: for a member, the plain fetch returns exactly the reversal of the
newest-first query truncated to `limit`; the returned page is sorted
ascending by creation time, holds `min limit n` of the room's `n` messages,
and every returned record is one of the room's messages. -/
theorem C6_get_messages_recent_ascending
    (db : DB) (caller room_id : Nat) (limit : Nat) (role : UserRole)
    (hacc : check_room_access db caller room_id = .ok role) :
    get_messages db caller room_id limit = .ok
      ((((db.messages.filter (fun m => m.room_id == room_id)).insertionSort
          msgGe).take limit).reverse)
    ∧ (∀ l, get_messages db caller room_id limit = .ok l →
        List.Sorted msgLe l
        ∧ l.length =
            min limit (db.messages.filter (fun m => m.room_id == room_id)).length
        ∧ ∀ m ∈ l, m ∈ db.messages.filter (fun m => m.room_id == room_id)) := by
  have heq : get_messages db caller room_id limit = .ok
      ((((db.messages.filter (fun m => m.room_id == room_id)).insertionSort
          msgGe).take limit).reverse) := by
    simp only [get_messages, hacc]
  refine ⟨heq, fun l hl => ?_⟩
  rw [heq] at hl
  have hl' : l = (((db.messages.filter (fun m => m.room_id == room_id)).insertionSort
      msgGe).take limit).reverse := by
    cases hl
    rfl
  subst hl'
  refine ⟨?_, ?_, ?_⟩
  · have h1 : List.Sorted msgGe
        ((db.messages.filter (fun m => m.room_id == room_id)).insertionSort msgGe) :=
      List.sorted_insertionSort msgGe _
    have h2 : List.Sorted msgGe
        (((db.messages.filter (fun m => m.room_id == room_id)).insertionSort
          msgGe).take limit) :=
      List.Pairwise.sublist (List.take_sublist _ _) h1
    exact List.pairwise_reverse.mpr h2
  · rw [List.length_reverse, List.length_take,
      ((db.messages.filter (fun m => m.room_id == room_id)).perm_insertionSort
        msgGe).length_eq]
  · intro m hm
    rw [List.mem_reverse] at hm
    have hm2 := List.take_subset _ _ hm
    exact (((db.messages.filter (fun m => m.room_id == room_id)).perm_insertionSort
      msgGe).mem_iff).mp hm2

/-- C6 witness: with messages 1, 2, 3 in room 1, member 3's fetch with
`limit = 2` returns `[2, 3]` in ascending order. -/
theorem C6_get_messages_recent_ascending_witness :
    get_messages sampleDB 3 1 2 = .ok [⟨2, 1, 1, "b", 2⟩, ⟨3, 1, 3, "c", 3⟩] := by
  have h := (C6_get_messages_recent_ascending sampleDB 3 1 2 UserRole.MEMBER
    (by decide)).1
  rw [h]
  decide

/-! ## C9: room-code generation -/

/-- Every alphabet position holds an uppercase letter or digit. -/
theorem code_alphabet_upperAlnum : ∀ n < 36, upperAlnumChar (code_alphabet.getD n 'A') := by
  decide

/-- A drawn candidate has exactly the requested length. -/
theorem drawnCode_length (length : Nat) (pick : Nat → Nat) :
    (drawnCode length pick).length = length := by
  simp [drawnCode, String.length]

/-- Every character of a drawn candidate is an uppercase letter or digit. -/
theorem drawnCode_chars (length : Nat) (pick : Nat → Nat) :
    ∀ c ∈ (drawnCode length pick).data, upperAlnumChar c := by
  intro c hc
  simp only [drawnCode, List.mem_map] at hc
  obtain ⟨j, _, hj⟩ := hc
  rw [← hj]
  exact code_alphabet_upperAlnum _ (Nat.mod_lt _ (by omega))

/-- Any code the generator returns is one of the drawn candidates and
collides with no existing room. -/
theorem generate_room_code_ok (db : DB) (picks : Nat → Nat → Nat) (length : Nat) :
    ∀ fuel i c, generate_room_code db picks length i fuel = some c →
      (∃ j, c = drawnCode length (picks j)) ∧ ∀ r ∈ db.rooms, r.code ≠ c := by
  intro fuel
  induction fuel with
  | zero =>
      intro i c h
      rw [generate_room_code] at h
      cases hf : db.rooms.find? (fun r => r.code == drawnCode length (picks i)) with
      | none =>
          simp only [hf, Option.some.injEq] at h
          subst h
          refine ⟨⟨i, rfl⟩, fun r hr => ?_⟩
          rw [List.find?_eq_none] at hf
          simpa using hf r hr
      | some r =>
          simp only [hf] at h
          cases h
  | succ n ih =>
      intro i c h
      rw [generate_room_code] at h
      cases hf : db.rooms.find? (fun r => r.code == drawnCode length (picks i)) with
      | none =>
          simp only [hf, Option.some.injEq] at h
          subst h
          refine ⟨⟨i, rfl⟩, fun r hr => ?_⟩
          rw [List.find?_eq_none] at hf
          simpa using hf r hr
      | some r =>
          simp only [hf] at h
          exact ih (i + 1) c h

/-- The generator returns the first collision-free candidate, redrawing past
every colliding one. -/
theorem generate_room_code_first_fresh (db : DB) (picks : Nat → Nat → Nat) (length : Nat) :
    ∀ fuel i k, i ≤ k → k ≤ i + fuel →
      (∀ j, i ≤ j → j < k → ∃ r ∈ db.rooms, r.code = drawnCode length (picks j)) →
      (∀ r ∈ db.rooms, r.code ≠ drawnCode length (picks k)) →
      generate_room_code db picks length i fuel =
        some (drawnCode length (picks k)) := by
  intro fuel
  induction fuel with
  | zero =>
      intro i k hik hk hcol hfresh
      have hki : k = i := by omega
      subst hki
      have hf : db.rooms.find? (fun r => r.code == drawnCode length (picks k)) = none := by
        rw [List.find?_eq_none]
        intro r hr
        simpa using hfresh r hr
      rw [generate_room_code]
      simp only [hf]
  | succ n ih =>
      intro i k hik hk hcol hfresh
      by_cases hki : k = i
      · subst hki
        have hf : db.rooms.find? (fun r => r.code == drawnCode length (picks k)) = none := by
          rw [List.find?_eq_none]
          intro r hr
          simpa using hfresh r hr
        rw [generate_room_code]
        simp only [hf]
      · have hlt : i < k := by omega
        obtain ⟨r, hr, hrc⟩ := hcol i (le_refl i) hlt
        have hf : (db.rooms.find? (fun x => x.code == drawnCode length (picks i))).isSome :=
          List.find?_isSome.mpr ⟨r, hr, by simp [hrc]⟩
        obtain ⟨r', hr'⟩ := Option.isSome_iff_exists.mp hf
        rw [generate_room_code]
        simp only [hr']
        exact ih (i + 1) k (by omega) (by omega)
          (fun j h1 h2 => hcol j (by omega) h2) hfresh

/-- C9: when the first `k` draws collide with existing rooms and draw `k`
does not (within the retry fuel), the generator returns exactly draw `k` —
collisions are absorbed by redrawing, never surfaced; and every code it ever
returns has exactly the requested length, consists only of uppercase letters
and digits, and differs from every room code in storage. -/
theorem C9_generate_code_unique_upper_alnum
    (db : DB) (picks : Nat → Nat → Nat) (length fuel k : Nat)
    (hk : k ≤ fuel)
    (hcol : ∀ j < k, ∃ r ∈ db.rooms, r.code = drawnCode length (picks j))
    (hfresh : ∀ r ∈ db.rooms, r.code ≠ drawnCode length (picks k)) :
    generate_room_code db picks length 0 fuel =
      some (drawnCode length (picks k))
    ∧ (∀ i fuel' c, generate_room_code db picks length i fuel' = some c →
        c.length = length
        ∧ (∀ ch ∈ c.data, upperAlnumChar ch)
        ∧ ∀ r ∈ db.rooms, r.code ≠ c) := by
  constructor
  · exact generate_room_code_first_fresh db picks length fuel 0 k (by omega)
      (by omega) (fun j _ hj => hcol j hj) hfresh
  · intro i fuel' c h
    obtain ⟨⟨j, hj⟩, hdiff⟩ := generate_room_code_ok db picks length fuel' i c h
    subst hj
    exact ⟨drawnCode_length length (picks j), drawnCode_chars length (picks j), hdiff⟩

/-- Store with a single room whose code collides with draw 0 of the witness
pick stream. -/
def codeDB : DB :=
  { rooms := [⟨1, "r", "ABCDEF", 1, 0⟩], room_members := [], messages := [],
    tasks := [], next_room_id := 2, next_member_id := 1 }

/-- C9 witness: with pick stream `i + j`, draw 0 (`ABCDEF`) collides with the
existing room and the generator silently redraws, returning draw 1
(`BCDEFG`), a six-character uppercase-alphanumeric code unused by any room. -/
theorem C9_generate_code_unique_upper_alnum_witness :
    generate_room_code codeDB (fun i j => i + j) 6 0 5 = some "BCDEFG"
    ∧ "BCDEFG".length = 6
    ∧ ∀ r ∈ codeDB.rooms, r.code ≠ "BCDEFG" := by
  have h := C9_generate_code_unique_upper_alnum codeDB (fun i j => i + j) 6 5 1
    (by omega)
    (fun j hj => by
      have hj0 : j = 0 := by omega
      subst hj0
      exact ⟨⟨1, "r", "ABCDEF", 1, 0⟩, by decide, by decide⟩)
    (fun r hr => by
      have hr1 : r = ⟨1, "r", "ABCDEF", 1, 0⟩ := by
        simpa [codeDB] using hr
      subst hr1
      decide)
  have hdraw : drawnCode 6 ((fun i j : Nat => i + j) 1) = "BCDEFG" := by decide
  refine ⟨?_, by decide, fun r hr => ?_⟩
  · rw [h.1, hdraw]
  · have hr1 : r = ⟨1, "r", "ABCDEF", 1, 0⟩ := by
      simpa [codeDB] using hr
    subst hr1
    decide

/-! ## C10: room listing -/

/-- Destructuring of membership in the room listing: a listed record arises
from exactly a non-banned membership of the caller whose room row resolves. -/
theorem mem_get_my_rooms_iff (db : DB) (u : Nat) (resp : RoomResponse) :
    resp ∈ get_my_rooms db u ↔ ∃ m ∈ db.room_members,
      (m.user_id == u && !m.is_banned) = true ∧
      ∃ room, db.rooms.find? (fun r => r.id == m.room_id) = some room ∧
        resp = ⟨room.id, room.name, room.code, room.created_by, room.created_at,
          member_count db room.id⟩ := by
  unfold get_my_rooms
  rw [List.mem_filterMap]
  constructor
  · rintro ⟨m, hm, hf⟩
    have hm' := List.mem_filter.mp hm
    cases hroom : db.rooms.find? (fun r => r.id == m.room_id) with
    | none => rw [hroom] at hf; cases hf
    | some room =>
        rw [hroom] at hf
        simp only [Option.map_some', Option.some.injEq] at hf
        exact ⟨m, hm'.1, hm'.2, room, hroom, hf.symm⟩
  · rintro ⟨m, hm, hp, room, hroom, hresp⟩
    refine ⟨m, List.mem_filter.mpr ⟨hm, hp⟩, ?_⟩
    rw [hroom, hresp]
    rfl

/-- C10: assuming referential integrity (each membership's room row exists)
and at most one membership of the caller per room, the listing contains a
record for a room exactly when the caller holds a non-banned membership in
it; each listed record's `member_count` counts the room's non-banned
memberships; and a banned membership silently omits its room (no failure is
raised — the listing is a total function). -/
theorem C10_my_rooms_nonbanned_listing (db : DB) (u : Nat)
    (hfk : ∀ m ∈ db.room_members, ∃ r ∈ db.rooms, r.id = m.room_id)
    (hpair : ∀ r ∈ db.rooms, (db.room_members.filter
      (fun m => m.room_id == r.id && m.user_id == u)).length ≤ 1) :
    (∀ r ∈ db.rooms, ((∃ resp ∈ get_my_rooms db u, resp.id = r.id) ↔
        ∃ m ∈ db.room_members, m.user_id = u ∧ m.is_banned = false ∧
          m.room_id = r.id))
    ∧ (∀ resp ∈ get_my_rooms db u, resp.member_count =
        (db.room_members.filter
          (fun m => m.room_id == resp.id && !m.is_banned)).length)
    ∧ (∀ m ∈ db.room_members, m.user_id = u → m.is_banned = true →
        ¬∃ resp ∈ get_my_rooms db u, resp.id = m.room_id) := by
  refine ⟨fun r hr => ⟨?_, ?_⟩, fun resp hresp => ?_, fun m hm hmu hmb hex => ?_⟩
  · rintro ⟨resp, hresp, hid⟩
    obtain ⟨m, hm, hp, room, hroom, hbuild⟩ :=
      (mem_get_my_rooms_iff db u resp).mp hresp
    simp only [Bool.and_eq_true, beq_iff_eq, Bool.not_eq_true'] at hp
    have hrid : room.id = m.room_id := by simpa using List.find?_some hroom
    have hrespid : resp.id = room.id := by rw [hbuild]
    exact ⟨m, hm, hp.1, hp.2, by rw [← hrid, ← hrespid, hid]⟩
  · rintro ⟨m, hm, hmu, hmb, hmr⟩
    have hp : (m.user_id == u && !m.is_banned) = true := by simp [hmu, hmb]
    obtain ⟨r0, hr0, hr0id⟩ := hfk m hm
    have hsome : (db.rooms.find? (fun x => x.id == m.room_id)).isSome :=
      List.find?_isSome.mpr ⟨r0, hr0, by simp [hr0id]⟩
    obtain ⟨room, hroom⟩ := Option.isSome_iff_exists.mp hsome
    have hrid : room.id = m.room_id := by simpa using List.find?_some hroom
    refine ⟨⟨room.id, room.name, room.code, room.created_by, room.created_at,
        member_count db room.id⟩,
      (mem_get_my_rooms_iff db u _).mpr ⟨m, hm, hp, room, hroom, rfl⟩, ?_⟩
    simpa [hrid] using hmr
  · obtain ⟨m, hm, hp, room, hroom, hbuild⟩ :=
      (mem_get_my_rooms_iff db u resp).mp hresp
    rw [hbuild]
    rfl
  · obtain ⟨resp, hresp, hid⟩ := hex
    obtain ⟨m', hm', hp', room', hroom', hbuild'⟩ :=
      (mem_get_my_rooms_iff db u resp).mp hresp
    simp only [Bool.and_eq_true, beq_iff_eq, Bool.not_eq_true'] at hp'
    have hr'id : room'.id = m'.room_id := by simpa using List.find?_some hroom'
    have hrespid : resp.id = room'.id := by rw [hbuild']
    obtain ⟨r0, hr0, hr0id⟩ := hfk m hm
    have hmmem : m ∈ db.room_members.filter
        (fun x => x.room_id == r0.id && x.user_id == u) :=
      List.mem_filter.mpr ⟨hm, by simp [hr0id.symm, hmu]⟩
    have hm'mem : m' ∈ db.room_members.filter
        (fun x => x.room_id == r0.id && x.user_id == u) := by
      refine List.mem_filter.mpr ⟨hm', ?_⟩
      have : m'.room_id = m.room_id := by rw [← hr'id, ← hrespid, hid]
      simp [this, hr0id.symm, hp'.1]
    have hmeq : m = m' :=
      eq_of_mem_of_length_le_one hmmem hm'mem (hpair r0 hr0)
    rw [hmeq, hp'.2] at hmb
    cases hmb

/-- C10 witness: in `sampleDB`, member 3's listing contains room 1 with the
correct non-banned member count, while the banned user 2's listing omits
room 1 without raising. -/
theorem C10_my_rooms_nonbanned_listing_witness :
    (∃ resp ∈ get_my_rooms sampleDB 3, resp.id = 1)
    ∧ (¬∃ resp ∈ get_my_rooms sampleDB 2, resp.id = 1)
    ∧ (∀ resp ∈ get_my_rooms sampleDB 3, resp.member_count =
        (sampleDB.room_members.filter
          (fun m => m.room_id == resp.id && !m.is_banned)).length) := by
  have h3 := C10_my_rooms_nonbanned_listing sampleDB 3 (by decide) (by decide)
  have h2 := C10_my_rooms_nonbanned_listing sampleDB 2 (by decide) (by decide)
  refine ⟨?_, ?_, h3.2.1⟩
  · exact (h3.1 ⟨1, "flat", "AB12CD", 1, 0⟩ (by decide)).mpr
      ⟨⟨3, 1, 3, UserRole.MEMBER, false, 0⟩, by decide, rfl, rfl, rfl⟩
  · exact h2.2.2 ⟨2, 1, 2, UserRole.MEMBER, true, 0⟩ (by decide) rfl rfl

end NServer
